import Mathlib

/-!
Verification development for the HOD population source
(nbodykit/source/particle/hod.py): a shallow embedding of the
gather/transform/scatter population cycle of HODBase, its in-place
repopulation lifecycle, the derived Position/Velocity columns, and the
object-dtype normalization, together with theorems about them.

Machinery the class uses from elsewhere in the repository
(nbodykit.utils.GatherArray / ScatterArray and the Array base class) is
modelled from the specification; each such definition carries a doc
comment saying so.
-/

/-- Element dtype of a column: the numpy object dtype O (an open,
dynamically typed variant value), the fixed-width unicode text dtype U,
or an ordinary fixed-width numeric dtype. -/
inductive DType where
  | object : DType
  | unicode : DType
  | numeric : DType
deriving DecidableEq, Repr

/-- A single cell value held in a column. -/
inductive Cell where
  | num : Int → Cell
  | obj : String → Cell
  | txt : String → Cell
deriving DecidableEq, Repr

/-- Conversion of one cell by numpy astype with the unicode dtype U. -/
def Cell.astypeU : Cell → Cell
  | .num n => .txt (toString n)
  | .obj s => .txt s
  | .txt s => .txt s

/-- A named, homogeneously typed column of a table. -/
structure Column where
  name : String
  dtype : DType
  cells : List Cell
deriving DecidableEq, Repr

/-- Conversion of a whole column by astype with the unicode dtype U:
the dtype becomes unicode and every cell is converted. -/
def Column.astypeU (c : Column) : Column :=
  { c with dtype := DType.unicode, cells := c.cells.map Cell.astypeU }

/-- A column-oriented table (a RowSet): an ordered sequence of named
columns, mirroring both an astropy Table and a numpy structured array. -/
abbrev Table := List Column

/-- Row count of a table: the length of its first column (all columns of a
well-formed table have equal length; a table with no columns has no rows). -/
def nrows : Table → Nat
  | [] => 0
  | c :: _ => c.cells.length

/-- The column names of a table, in column order. -/
def colnames (t : Table) : List String := t.map Column.name

/-- Field access on a structured array or astropy table: the cells of the
column with the given name, or none when the column is absent (a KeyError
in the Python source). -/
def getCol (t : Table) (n : String) : Option (List Cell) :=
  (t.find? (fun c => c.name == n)).map Column.cells

/-- Embedding of remove_object_dtypes (hod.py, lines 13-20): every column
whose dtype is the object dtype O is converted to the fixed-width unicode
dtype U; all other columns are left untouched. -/
def remove_object_dtypes (data : Table) : Table :=
  data.map (fun c => if c.dtype = DType.object then c.astypeU else c)

/-- Modelled from the spec: the number of rows rank i receives when
ScatterArray (nbodykit.utils, not under src/) distributes T total rows over
R ranks — T / R rows, plus one of the T % R remainder rows when i < T % R
(spec section 4.3). -/
def shardSize (T R i : Nat) : Nat :=
  T / R + if i < T % R then 1 else 0

/-- Modelled from the spec: the offset in the consolidated row order at
which rank i's contiguous block starts under ScatterArray's partition
(spec section 4.3: rank 0 gets the first block, rank 1 the next, and so
on). -/
def shardStart (T R i : Nat) : Nat :=
  i * (T / R) + min i (T % R)

/-- Modelled from the spec: the shard of the consolidated row sequence
that ScatterArray (nbodykit.utils, not under src/) delivers to rank i —
the i-th contiguous block of the balanced partition. -/
def scatterShard (data : List α) (R i : Nat) : List α :=
  (data.drop (shardStart data.length R i)).take (shardSize data.length R i)

/-- Modelled from the spec: GatherArray (nbodykit.utils, not under src/)
concatenates the per-rank contributions on the root in strictly increasing
rank order, preserving row order within each contribution (spec section
4.1). -/
def gather (shards : List (List α)) : List α := shards.flatten

/-- An attribute or parameter value: the Python None, a numeric value, a
string, or a small vector of numbers (BoxSize, rsd). -/
inductive Val where
  | none : Val
  | num : Int → Val
  | str : String → Val
  | vec : List Int → Val
deriving DecidableEq, Repr

/-- The stored form of an optional integer seed: None when absent. -/
def Val.ofSeed : Option Int → Val
  | Option.none => Val.none
  | Option.some n => Val.num n

/-- Errors raised by the population machinery. The Python source raises
TypeError or ValueError with distinguishing messages; the spec names the
ValueError cases MissingParameterError, UnknownParameterError and
EmptyResultError, and the KeyError of a missing column
MissingColumnError. -/
inductive PopError where
  | missingParameter : String → PopError
  | unknownParameter : String → PopError
  | emptyResult : PopError
  | missingColumn : String → PopError
  | attributeOnNone : PopError
deriving DecidableEq, Repr

/-- A collective communication operation, recorded in order of
execution. -/
inductive CommEvent where
  | gatherEv : CommEvent
  | scatterEv : CommEvent
deriving DecidableEq, Repr

/-- The module-global mutable state of halotools model_defaults that
HODBase.__init__ (hod.py, line 61) assigns to. -/
structure Globals where
  default_haloprop_list_inherited_by_mock : List String
deriving DecidableEq, Repr

/-- The mock held by the external model after a population: it stores the
(preprocessed) halo table it was populated from and, until deleted, the
galaxy table the population produced. -/
structure Mock where
  halocat_table : Table
  galaxy_table : Option Table
deriving DecidableEq, Repr

/-- The external halotools composite model as seen by HODBase: a parameter
dictionary (param_dict) mapping each declared parameter name to its value,
and the mock created by populate_mock (none before the first
population). -/
structure HodModel where
  param_dict : List (String × Val)
  mock : Option Mock
deriving DecidableEq, Repr

/-- Global (all-ranks) state of one HOD catalog: the communicator size,
the per-rank halo tables, the attribute map, the model, the per-rank
installed source shards, and bookkeeping fields of the instance. -/
structure HODState where
  rank_count : Nat
  halos_tables : List Table
  Lbox : Int
  mass : String
  radius : String
  attrs : List (String × Val)
  model : HodModel
  sources : List Table
  use_cache : Bool
  generation : Nat
deriving DecidableEq, Repr

/-- The external transform (halotools populate_mock, and the mock.populate
re-population variant): from the stored halo table, the bound parameter
dictionary, the halo mass column key, the minimum-particle requirement and
the seed attribute, produce a galaxy table. Opaque to this development. -/
abbrev PopFn := Table → List (String × Val) → String → Nat → Val → Table

/-- Python dict key membership test on an association list. -/
def hasKey (d : List (String × Val)) (k : String) : Bool :=
  d.any (fun kv => kv.1 == k)

/-- Python dict assignment for a key that is already present: the value of
every entry carrying the key is replaced, order and keys unchanged. -/
def setParam (d : List (String × Val)) (k : String) (v : Val) : List (String × Val) :=
  d.map (fun kv => if kv.1 == k then (k, v) else kv)

/-- Python dict assignment on the attribute map: update the entry in place
when the key exists, append a new entry otherwise. -/
def setAttr (a : List (String × Val)) (k : String) (v : Val) : List (String × Val) :=
  if hasKey a k then setParam a k v else a ++ [(k, v)]

/-- The attribute map HODBase.__init__ (hod.py, lines 52-69) builds:
BoxSize from the halo catalog, then mdef, redshift, rsd and seed, then the
HOD parameters, then the prefixed cosmology entries. -/
def initAttrs (Lbox : Int) (redshift : Val) (mdef : String) (rsd : List Int)
    (seed : Option Int) (params cosmo : List (String × Val)) : List (String × Val) :=
  let a := setAttr [] "BoxSize" (Val.vec [Lbox, Lbox, Lbox])
  let a := setAttr a "mdef" (Val.str mdef)
  let a := setAttr a "redshift" redshift
  let a := setAttr a "rsd" (Val.vec rsd)
  let a := setAttr a "seed" (Val.ofSeed seed)
  let a := params.foldl (fun a kv => setAttr a kv.1 kv.2) a
  cosmo.foldl (fun a kv => setAttr a ("cosmo." ++ kv.1) kv.2) a

/-- Embedding of the parameter preflight loop of HODBase.__init__ (hod.py,
lines 74-78): iterate over the declared parameter names of the model in
order; a name absent from the attribute map raises the missing-parameter
ValueError, a present one has its value copied into param_dict. -/
def bindParams (attrs : List (String × Val)) :
    List (String × Val) → List String → Except PopError (List (String × Val))
  | pd, [] => Except.ok pd
  | pd, name :: rest =>
    match List.lookup name attrs with
    | Option.none => Except.error (PopError.missingParameter name)
    | Option.some v => bindParams attrs (setParam pd name v) rest

/-- Embedding of the parameter-update loop of HODBase.repopulate (hod.py,
lines 150-155): iterate the supplied parameters in order; an unknown name
raises the ValueError at that point, with every earlier assignment already
written into param_dict (the accumulated dictionary is returned in both
outcomes). -/
def updateParams :
    List (String × Val) → List (String × Val) → Except PopError Unit × List (String × Val)
  | pd, [] => (Except.ok (), pd)
  | pd, (name, v) :: rest =>
    if hasKey pd name then updateParams (setParam pd name v) rest
    else (Except.error (PopError.unknownParameter name), pd)

/-- Modelled from the spec: pairwise concatenation of two equal-schema
tables, used to state GatherArray on column-oriented tables. -/
def happend (a b : Table) : Table :=
  List.zipWith (fun ca cb => { ca with cells := ca.cells ++ cb.cells }) a b

/-- Modelled from the spec: GatherArray (nbodykit.utils, not under src/)
on tables — concatenate the per-rank tables row-wise in increasing rank
order on the root. -/
def gatherTables : List Table → Table
  | [] => []
  | t :: ts => ts.foldl happend t

/-- Modelled from the spec: the table ScatterArray delivers to rank i —
every column of the source table restricted to the rows of the i-th
contiguous block of the balanced partition; schema and dtypes are those of
the source. -/
def scatterTable (data : Table) (R i : Nat) : Table :=
  data.map (fun c =>
    let cs := (c.cells.drop (shardStart (nrows data) R i)).take (shardSize (nrows data) R i)
    { c with cells := cs })

/-- Modelled from the spec: the family of per-rank tables produced by one
collective ScatterArray call. -/
def scatterAll (data : Table) (R : Nat) : List Table :=
  (List.range R).map (fun i => scatterTable data R i)

/-- Modelled from the spec: Array.__init__ (nbodykit from_numpy, not under
src/) installs the given per-rank shards as the catalog's current source;
the generation counter of the spec (section 3) increments on every
install. -/
def Array_init (st : HODState) (data : List Table) : HODState :=
  { st with sources := data, generation := st.generation + 1 }

/-- Embedding of HODBase._makesource (hod.py, lines 96-130): gather every
rank's halo table to the root; on the root replace the halo table of the
stored catalog by its object-dtype-normalized copy, run the external
population on it, normalize the resulting galaxy table and delete it from
the mock; scatter the result evenly over all ranks. Returns the updated
state, the per-rank scattered tables, and the collective operations
performed. -/
def makesource (pm : PopFn) (st : HODState) : HODState × List Table × List CommEvent :=
  let all_halos := gatherTables st.halos_tables
  let halotab := remove_object_dtypes all_halos
  let st1 := { st with halos_tables := st.halos_tables.set 0 halotab }
  let galaxy := pm halotab st1.model.param_dict st1.mass 1
      ((List.lookup "seed" st1.attrs).getD Val.none)
  let data := remove_object_dtypes galaxy
  let st2 := { st1 with model := { st1.model with
      mock := Option.some { halocat_table := halotab, galaxy_table := Option.none } } }
  (st2, scatterAll data st2.rank_count, [CommEvent.gatherEv, CommEvent.scatterEv])

/-- Embedding of HODBase.__init__ (hod.py, lines 36-85). Inputs: the model
returned by the subclass hook _makemodel, the external population
transform, the halotools mass/boundary key functions, the per-rank halo
tables and box size of the input catalog, the cosmology mapping, redshift,
mass definition, optional rsd direction and seed, the cache flag, the
communicator size, the HOD parameters, and the module-global state.
Returns the constructed state or the error raised, together with the
module-global state after the call and the collective operations
performed. The isinstance check of line 41 is enforced by the types. -/
def HODBase_init (model0 : HodModel) (pm : PopFn)
    (getHaloMassKey getHaloBoundaryKey : String → String)
    (halos_tables : List Table) (Lbox : Int) (cosmo : List (String × Val))
    (redshift : Val) (mdef : String) (rsd : Option (List Int))
    (seed : Option Int) (use_cache : Bool) (rank_count : Nat)
    (params : List (String × Val)) (g : Globals) :
    Except PopError HODState × Globals × List CommEvent :=
  let rsdv := rsd.getD [0, 0, 0]
  let g1 : Globals :=
    { default_haloprop_list_inherited_by_mock := colnames (halos_tables.headD []) }
  let attrs := initAttrs Lbox redshift mdef rsdv seed params cosmo
  let st0 : HODState :=
    { rank_count := rank_count, halos_tables := halos_tables, Lbox := Lbox,
      mass := getHaloMassKey mdef, radius := getHaloBoundaryKey mdef,
      attrs := attrs, model := model0, sources := [], use_cache := use_cache,
      generation := 0 }
  match bindParams attrs st0.model.param_dict (st0.model.param_dict.map Prod.fst) with
  | Except.error e => (Except.error e, g1, [])
  | Except.ok pd =>
    let st1 := { st0 with model := { st0.model with param_dict := pd } }
    let ms := makesource pm st1
    let st2 := Array_init ms.1 ms.2.1
    if (st2.sources.map nrows).sum = 0 then (Except.error PopError.emptyResult, g1, ms.2.2)
    else (Except.ok st2, g1, ms.2.2)

/-- Embedding of HODBase.repopulate (hod.py, lines 132-177): store the new
seed (the argument default None when omitted), update the supplied HOD
parameters one by one rejecting unknown names, re-populate the mock on the
root from the halo table stored in the mock, normalize the galaxy table
and delete it from the mock, scatter the result and re-install it as the
source. Returns the outcome, the state of the instance after the call
(mutations before a raise persist), and the collective operations
performed. -/
def repopulate (mp : PopFn) (seed : Option Int) (params : List (String × Val))
    (st : HODState) : Except PopError Unit × HODState × List CommEvent :=
  let st1 := { st with attrs := setAttr st.attrs "seed" (Val.ofSeed seed) }
  match updateParams st1.model.param_dict params with
  | (Except.error e, pd) =>
    (Except.error e, { st1 with model := { st1.model with param_dict := pd } }, [])
  | (Except.ok _, pd) =>
    let st2 := { st1 with model := { st1.model with param_dict := pd } }
    match st2.model.mock with
    | Option.none => (Except.error PopError.attributeOnNone, st2, [])
    | Option.some mock =>
      let galaxy := mp mock.halocat_table st2.model.param_dict st2.mass 1
          ((List.lookup "seed" st2.attrs).getD Val.none)
      let data := remove_object_dtypes galaxy
      let st3 := { st2 with model := { st2.model with
          mock := Option.some { mock with galaxy_table := Option.none } } }
      (Except.ok (), Array_init st3 (scatterAll data st3.rank_count),
        [CommEvent.scatterEv])

/-- Row-major stacking of three equal-length cell lists, one triple per
row. -/
def zip3 : List Cell → List Cell → List Cell → List (Cell × Cell × Cell)
  | a :: as, b :: bs, c :: cs => (a, b, c) :: zip3 as bs cs
  | _, _, _ => []

/-- The numpy.vstack([t[n1], t[n2], t[n3]]).T pattern of the Position and
Velocity accessors (hod.py, lines 192-200): read the three source columns
in order, raising the KeyError of the first absent one, and stack them
into one row-major triple per row. -/
def vstackT (t : Table) (n1 n2 n3 : String) :
    Except PopError (List (Cell × Cell × Cell)) :=
  match getCol t n1 with
  | Option.none => Except.error (PopError.missingColumn n1)
  | Option.some xs =>
    match getCol t n2 with
    | Option.none => Except.error (PopError.missingColumn n2)
    | Option.some ys =>
      match getCol t n3 with
      | Option.none => Except.error (PopError.missingColumn n3)
      | Option.some zs => Except.ok (zip3 xs ys zs)

/-- Embedding of the Position accessor (hod.py, lines 192-195) on the
current local shard. -/
def Position (src : Table) : Except PopError (List (Cell × Cell × Cell)) :=
  vstackT src "x" "y" "z"

/-- Embedding of the Velocity accessor (hod.py, lines 197-200) on the
current local shard. -/
def Velocity (src : Table) : Except PopError (List (Cell × Cell × Cell)) :=
  vstackT src "vx" "vy" "vz"


/-- A population transform that always returns an empty galaxy table, used
as a concrete instance of the opaque external model. -/
def emptyPop : PopFn := fun _ _ _ _ _ => []

/-- A concrete two-row galaxy table with the coordinate columns the model
provider emits, used as a concrete instance of a transform result. -/
def exGalaxyTable : Table :=
  [{ name := "x", dtype := DType.numeric, cells := [Cell.num 1, Cell.num 2] },
   { name := "y", dtype := DType.numeric, cells := [Cell.num 3, Cell.num 4] },
   { name := "z", dtype := DType.numeric, cells := [Cell.num 5, Cell.num 6] }]

/-- A population transform that always returns `exGalaxyTable`. -/
def exPop : PopFn := fun _ _ _ _ _ => exGalaxyTable

/-- A concrete one-row halo table with a numeric mass column and an
object-dtype label column. -/
def exHaloTable : Table :=
  [{ name := "halo_mvir", dtype := DType.numeric, cells := [Cell.num 9] },
   { name := "tag", dtype := DType.object, cells := [Cell.obj "a"] }]

/-- A concrete model with two declared parameters and no mock yet. -/
def exModel : HodModel :=
  { param_dict := [("alpha", Val.num 1), ("beta", Val.num 2)], mock := Option.none }

/-- A concrete already-populated catalog state over two ranks, as left by a
successful construction: the mock stores the normalized halo table, the
sources hold one one-row shard per rank. -/
def exPopulated : HODState :=
  { rank_count := 2,
    halos_tables := [remove_object_dtypes exHaloTable, exHaloTable],
    Lbox := 100,
    mass := "halo_mvir",
    radius := "halo_rvir",
    attrs := [("seed", Val.num 42), ("alpha", Val.num 1), ("beta", Val.num 2)],
    model := { param_dict := [("alpha", Val.num 1), ("beta", Val.num 2)],
               mock := Option.some { halocat_table := remove_object_dtypes exHaloTable,
                                     galaxy_table := Option.none } },
    sources := [[{ name := "x", dtype := DType.numeric, cells := [Cell.num 1] }],
                [{ name := "x", dtype := DType.numeric, cells := [Cell.num 2] }]],
    use_cache := false,
    generation := 1 }

theorem shardStart_zero (T R : Nat) : shardStart T R 0 = 0 := by
  simp [shardStart]

theorem shardStart_succ (T R i : Nat) :
    shardStart T R (i + 1) = shardStart T R i + shardSize T R i := by
  simp only [shardStart, shardSize, Nat.succ_mul]
  rcases Nat.lt_or_ge i (T % R) with h | h
  · rw [if_pos h, Nat.min_eq_left (Nat.succ_le_of_lt h), Nat.min_eq_left (Nat.le_of_lt h)]
    generalize i * (T / R) = a
    omega
  · rw [if_neg (Nat.not_lt.mpr h), Nat.min_eq_right h, Nat.min_eq_right (Nat.le_succ_of_le h)]
    generalize i * (T / R) = a
    omega

theorem shardStart_mono (T R : Nat) : ∀ {i j : Nat}, i ≤ j →
    shardStart T R i ≤ shardStart T R j := by
  intro i j h
  induction j with
  | zero =>
    have : i = 0 := Nat.le_zero.mp h
    subst this; exact Nat.le_refl _
  | succ j ih =>
    rcases Nat.lt_or_ge i (j + 1) with h2 | h2
    · have h3 := ih (Nat.lt_succ_iff.mp h2)
      calc shardStart T R i ≤ shardStart T R j := h3
        _ ≤ shardStart T R (j + 1) := by
              rw [shardStart_succ]; exact Nat.le_add_right _ _
    · have : i = j + 1 := Nat.le_antisymm h h2
      subst this; exact Nat.le_refl _

theorem shardStart_self (T R : Nat) (hR : 0 < R) : shardStart T R R = T := by
  have hmod : T % R < R := Nat.mod_lt _ hR
  simp only [shardStart, Nat.min_eq_right (Nat.le_of_lt hmod)]
  exact Nat.div_add_mod T R

theorem shardStart_add_size_le (T R i : Nat) (hi : i < R) :
    shardStart T R i + shardSize T R i ≤ T := by
  rw [← shardStart_succ]
  have hR : 0 < R := Nat.lt_of_le_of_lt (Nat.zero_le i) hi
  calc shardStart T R (i + 1) ≤ shardStart T R R := shardStart_mono T R hi
    _ = T := shardStart_self T R hR

theorem length_scatterShard (data : List α) {R i : Nat} (hi : i < R) :
    (scatterShard data R i).length = shardSize data.length R i := by
  have hle := shardStart_add_size_le data.length R i hi
  simp only [scatterShard, List.length_take, List.length_drop]
  omega

theorem join_scatterShard_range' (data : List α) (R : Nat) :
    ∀ (b a : Nat), a + b ≤ R →
      ((List.range' a b).map (fun i => scatterShard data R i)).flatten
        = (data.drop (shardStart data.length R a)).take
            (shardStart data.length R (a + b) - shardStart data.length R a) := by
  intro b
  induction b with
  | zero => intro a _; simp
  | succ b ih =>
    intro a h
    rw [List.range'_succ, List.map_cons, List.flatten_cons, ih (a + 1) (by omega)]
    have hstep := shardStart_succ data.length R a
    have hmono : shardStart data.length R (a + 1)
        ≤ shardStart data.length R (a + 1 + b) :=
      shardStart_mono data.length R (Nat.le_add_right _ _)
    have harr : a + (b + 1) = a + 1 + b := by omega
    rw [harr]
    have hsum : shardStart data.length R (a + 1 + b) - shardStart data.length R a
        = shardSize data.length R a
          + (shardStart data.length R (a + 1 + b) - shardStart data.length R (a + 1)) := by
      omega
    rw [hsum, List.take_add, List.drop_drop, scatterShard]
    have hdro : shardStart data.length R a + shardSize data.length R a
        = shardStart data.length R (a + 1) := hstep.symm
    rw [hdro]

theorem join_scatterShard_range (data : List α) (R : Nat) (hR : 0 < R) :
    ((List.range R).map (fun i => scatterShard data R i)).flatten = data := by
  rw [List.range_eq_range', join_scatterShard_range' data R R 0 (by omega)]
  simp [shardStart_zero, shardStart_self data.length R hR]

theorem countP_range_lt (R k : Nat) :
    (List.range R).countP (fun j => decide (j < k)) = min k R := by
  induction R with
  | zero => simp
  | succ R ih =>
    rw [List.range_succ, List.countP_append, ih]
    by_cases h : R < k
    · simp [List.countP_cons, h]
      omega
    · simp [List.countP_cons, h]
      omega

theorem succ_div_of_mod_pos (T R : Nat) (hR : 0 < R) (hmod : 0 < T % R) :
    (T + R - 1) / R = T / R + 1 := by
  have hlt : T % R < R := Nat.mod_lt _ hR
  obtain ⟨q, r, hr_lt, hpos, rfl⟩ :
      ∃ q r, r < R ∧ 0 < r ∧ T = R * q + r :=
    ⟨T / R, T % R, hlt, hmod, (Nat.div_add_mod T R).symm⟩
  have h1 : R * q + r + R - 1 = R * (q + 1) + (r - 1) := by
    rw [Nat.mul_add, Nat.mul_one]
    generalize R * q = a
    omega
  have h2 : (R * q + r) / R = q := by
    rw [Nat.mul_add_div hR, Nat.div_eq_of_lt hr_lt]
    omega
  have h3 : (R * (q + 1) + (r - 1)) / R = q + 1 := by
    rw [Nat.mul_add_div hR, Nat.div_eq_of_lt (by omega)]
  rw [h1, h2, h3]


/-- C4: scattering a consolidated row sequence of T rows over R ranks gives
rank i a shard of exactly T / R + 1 rows when i < T % R and T / R rows
otherwise; hence every shard has either the floor or the ceiling of T / R
rows, and exactly T % R ranks — the lowest-indexed ones — receive the
larger size. -/
theorem scatter_balanced (data : List α) (R i : Nat) (hi : i < R) :
    ((scatterShard data R i).length
        = if i < data.length % R then data.length / R + 1 else data.length / R)
    ∧ ((scatterShard data R i).length = data.length / R
        ∨ (scatterShard data R i).length = (data.length + R - 1) / R)
    ∧ (List.range R).countP
        (fun j => decide ((scatterShard data R j).length = data.length / R + 1))
        = data.length % R := by
  have hR : 0 < R := Nat.lt_of_le_of_lt (Nat.zero_le i) hi
  have hpoint : ∀ j, j < R → (scatterShard data R j).length
      = if j < data.length % R then data.length / R + 1 else data.length / R := by
    intro j hj
    rw [length_scatterShard data hj]
    simp only [shardSize]
    split
    · rfl
    · simp
  refine ⟨hpoint i hi, ?_, ?_⟩
  · rw [hpoint i hi]
    by_cases h : i < data.length % R
    · rw [if_pos h]
      exact Or.inr (succ_div_of_mod_pos data.length R hR (by omega)).symm
    · rw [if_neg h]
      exact Or.inl rfl
  · have hcong : (List.range R).countP
        (fun j => decide ((scatterShard data R j).length = data.length / R + 1))
        = (List.range R).countP (fun j => decide (j < data.length % R)) := by
      refine List.countP_congr ?_
      intro j hj
      have hjR : j < R := List.mem_range.mp hj
      rw [hpoint j hjR]
      by_cases h : j < data.length % R
      · simp [h]
      · simp [h]
    rw [hcong, countP_range_lt]
    exact Nat.min_eq_left (Nat.le_of_lt (Nat.mod_lt _ hR))

/-- Witness for C4 at a concrete input: five rows over two ranks give the
first rank three rows and one rank out of two receives the larger size. -/
theorem scatter_balanced_witness :
    (0 : Nat) < 2
    ∧ (((scatterShard [0, 1, 2, 3, 4] 2 0).length
          = if 0 < ([0, 1, 2, 3, 4] : List Nat).length % 2
            then ([0, 1, 2, 3, 4] : List Nat).length / 2 + 1
            else ([0, 1, 2, 3, 4] : List Nat).length / 2)
        ∧ (((scatterShard [0, 1, 2, 3, 4] 2 0).length
              = ([0, 1, 2, 3, 4] : List Nat).length / 2)
            ∨ ((scatterShard [0, 1, 2, 3, 4] 2 0).length
              = (([0, 1, 2, 3, 4] : List Nat).length + 2 - 1) / 2))
        ∧ (List.range 2).countP
            (fun j => decide ((scatterShard [0, 1, 2, 3, 4] 2 j).length
              = ([0, 1, 2, 3, 4] : List Nat).length / 2 + 1))
            = ([0, 1, 2, 3, 4] : List Nat).length % 2) :=
  ⟨by decide, scatter_balanced [0, 1, 2, 3, 4] 2 0 (by decide)⟩

/-- C5: the gatherer concatenates per-rank contributions in strictly
increasing rank order and the scatterer partitions contiguously in that
same order, so a round-trip gather followed by scatter with no transform is
a content-preserving identity: concatenating every rank's resulting shard
in rank order reproduces the original consolidated row order exactly. -/
theorem gather_scatter_roundtrip (shards : List (List α)) :
    ((List.range shards.length).map
        (fun i => scatterShard (gather shards) shards.length i)).flatten
      = gather shards := by
  cases shards with
  | nil => simp [gather]
  | cons t ts =>
    exact join_scatterShard_range (gather (t :: ts)) (t :: ts).length
      (Nat.succ_pos _)


theorem lookup_setParam_self (d : List (String × Val)) (k : String) (v : Val)
    (h : hasKey d k = true) : List.lookup k (setParam d k v) = Option.some v := by
  induction d with
  | nil => simp [hasKey] at h
  | cons kv d ih =>
    obtain ⟨k1, v1⟩ := kv
    simp only [hasKey, List.any_cons, Bool.or_eq_true] at h
    show List.lookup k ((if (k1, v1).1 == k then (k, v) else (k1, v1)) :: setParam d k v)
        = Option.some v
    by_cases hk : k1 = k
    · rw [show ((k1, v1).1 == k) = true from beq_iff_eq.mpr hk, if_pos rfl,
        List.lookup_cons]
      simp
    · have hb : (k1 == k) = false := beq_eq_false_iff_ne.mpr hk
      have hb2 : (k == k1) = false := beq_eq_false_iff_ne.mpr (Ne.symm hk)
      have h2 : hasKey d k = true := by
        rcases h with h1 | h1
        · rw [show ((k1, v1).1 == k) = (k1 == k) from rfl, hb] at h1; cases h1
        · exact h1
      rw [show ((k1, v1).1 == k) = false from hb, if_neg (by simp), List.lookup_cons]
      simp only [hb2]
      exact ih h2

theorem lookup_append_self (a : List (String × Val)) (k : String) (v : Val)
    (h : hasKey a k = false) :
    List.lookup k (a ++ [(k, v)]) = Option.some v := by
  induction a with
  | nil =>
    rw [List.nil_append, List.lookup_cons]
    simp
  | cons kv a ih =>
    obtain ⟨k1, v1⟩ := kv
    simp only [hasKey, List.any_cons, Bool.or_eq_false_iff] at h
    have hne : k1 ≠ k := by
      intro hEq
      have h1 := h.1
      rw [show ((k1, v1).1 == k) = (k1 == k) from rfl, beq_iff_eq.mpr hEq] at h1
      cases h1
    have hb2 : (k == k1) = false := beq_eq_false_iff_ne.mpr (Ne.symm hne)
    rw [List.cons_append, List.lookup_cons]
    simp only [hb2]
    exact ih h.2

theorem lookup_setAttr_self (a : List (String × Val)) (k : String) (v : Val) :
    List.lookup k (setAttr a k v) = Option.some v := by
  unfold setAttr
  by_cases h : hasKey a k = true
  · rw [if_pos h]; exact lookup_setParam_self a k v h
  · rw [if_neg h]
    exact lookup_append_self a k v (by simpa using h)

theorem keys_setParam (d : List (String × Val)) (k : String) (v : Val) :
    (setParam d k v).map Prod.fst = d.map Prod.fst := by
  induction d with
  | nil => rfl
  | cons kv d ih =>
    obtain ⟨k1, v1⟩ := kv
    show ((if (k1, v1).1 == k then (k, v) else (k1, v1)) :: setParam d k v).map Prod.fst
        = k1 :: d.map Prod.fst
    by_cases hk : k1 = k
    · rw [show ((k1, v1).1 == k) = true from beq_iff_eq.mpr hk, if_pos rfl]
      simp [ih, hk]
    · rw [show ((k1, v1).1 == k) = false from beq_eq_false_iff_ne.mpr hk,
        if_neg (by simp)]
      simp [ih]

theorem hasKey_eq_any_keys (d : List (String × Val)) (k : String) :
    hasKey d k = (d.map Prod.fst).any (fun s => s == k) := by
  induction d with
  | nil => rfl
  | cons kv d ih =>
    simp only [hasKey, List.map_cons, List.any_cons] at ih ⊢
    rw [ih]

theorem hasKey_setParam (d : List (String × Val)) (k k2 : String) (v : Val) :
    hasKey (setParam d k v) k2 = hasKey d k2 := by
  rw [hasKey_eq_any_keys, hasKey_eq_any_keys, keys_setParam]

theorem updateParams_find_unknown :
    ∀ (params pd : List (String × Val)) (nv : String × Val),
      params.find? (fun kv => !(hasKey pd kv.1)) = Option.some nv →
      (updateParams pd params).1 = Except.error (PopError.unknownParameter nv.1)
      ∧ hasKey pd nv.1 = false := by
  intro params
  induction params with
  | nil => intro pd nv h; simp at h
  | cons kv rest ih =>
    intro pd nv h
    obtain ⟨name, v⟩ := kv
    rw [List.find?_cons] at h
    simp only [] at h
    by_cases hk : hasKey pd name = true
    · rw [show (!(hasKey pd (name, v).1)) = false by simp [hk]] at h
      have h2 : rest.find? (fun kv2 => !(hasKey pd kv2.1)) = Option.some nv := h
      have hfun : (fun kv2 : String × Val => !(hasKey (setParam pd name v) kv2.1))
          = (fun kv2 : String × Val => !(hasKey pd kv2.1)) := by
        funext kv2
        rw [hasKey_setParam]
      have h3 : rest.find? (fun kv2 => !(hasKey (setParam pd name v) kv2.1))
          = Option.some nv := by rw [hfun]; exact h2
      have hrec := ih (setParam pd name v) nv h3
      constructor
      · rw [show updateParams pd ((name, v) :: rest)
            = updateParams (setParam pd name v) rest by simp [updateParams, hk]]
        exact hrec.1
      · rw [← hasKey_setParam pd name nv.1 v]
        exact hrec.2
    · have hk2 : hasKey pd name = false := by simpa using hk
      rw [show (!(hasKey pd (name, v).1)) = true by simp [hk2]] at h
      have hnv : nv = (name, v) := by
        have h4 : Option.some (name, v) = Option.some nv := h
        injection h4 with h5
        exact h5.symm
      subst hnv
      exact ⟨by simp [updateParams, hk2], hk2⟩

theorem bindParams_find_missing (attrs : List (String × Val)) :
    ∀ (keys : List String) (pd : List (String × Val)) (n : String),
      keys.find? (fun p => (List.lookup p attrs).isNone) = Option.some n →
      bindParams attrs pd keys = Except.error (PopError.missingParameter n)
      ∧ (List.lookup n attrs).isNone = true := by
  intro keys
  induction keys with
  | nil => intro pd n h; simp at h
  | cons k rest ih =>
    intro pd n h
    rw [List.find?_cons] at h
    cases hl : List.lookup k attrs with
    | none =>
      rw [show ((List.lookup k attrs).isNone) = true by simp [hl]] at h
      have hn : n = k := by
        have h4 : Option.some k = Option.some n := h
        injection h4 with h5
        exact h5.symm
      subst hn
      exact ⟨by simp [bindParams, hl], by simp [hl]⟩
    | some v =>
      rw [show ((List.lookup k attrs).isNone) = false by simp [hl]] at h
      have h2 : rest.find? (fun p => (List.lookup p attrs).isNone) = Option.some n := h
      have hrec := ih (setParam pd k v) n h2
      refine ⟨?_, hrec.2⟩
      rw [show bindParams attrs pd (k :: rest)
          = bindParams attrs (setParam pd k v) rest by simp [bindParams, hl]]
      exact hrec.1

theorem zip3_getElem? :
    ∀ (as bs cs : List Cell) (i : Nat) (a b c : Cell),
      as[i]? = Option.some a → bs[i]? = Option.some b → cs[i]? = Option.some c →
      (zip3 as bs cs)[i]? = Option.some (a, b, c) := by
  intro as
  induction as with
  | nil => intro bs cs i a b c ha; simp at ha
  | cons a0 as ih =>
    intro bs cs i a b c ha hb hc
    cases bs with
    | nil => simp at hb
    | cons b0 bs =>
      cases cs with
      | nil => simp at hc
      | cons c0 cs =>
        cases i with
        | zero =>
          simp only [List.getElem?_cons_zero, Option.some.injEq] at ha hb hc
          subst ha; subst hb; subst hc
          simp [zip3]
        | succ i =>
          simp only [List.getElem?_cons_succ] at ha hb hc
          simpa [zip3] using ih bs cs i a b c ha hb hc

theorem zip3_length :
    ∀ (as bs cs : List Cell),
      (zip3 as bs cs).length = min as.length (min bs.length cs.length) := by
  intro as
  induction as with
  | nil => intro bs cs; simp [zip3]
  | cons a0 as ih =>
    intro bs cs
    cases bs with
    | nil => simp [zip3]
    | cons b0 bs =>
      cases cs with
      | nil => simp [zip3]
      | cons c0 cs =>
        simp only [zip3, List.length_cons, ih bs cs]
        omega

theorem repopulate_of_updateParams_error (mp : PopFn) (seed : Option Int)
    (params : List (String × Val)) (st : HODState) (e : PopError)
    (pd : List (String × Val))
    (h : updateParams st.model.param_dict params = (Except.error e, pd)) :
    repopulate mp seed params st
      = (Except.error e,
         { st with attrs := setAttr st.attrs "seed" (Val.ofSeed seed),
                   model := { st.model with param_dict := pd } }, []) := by
  simp only [repopulate]
  rw [show ({ st with attrs := setAttr st.attrs "seed" (Val.ofSeed seed) } : HODState).model
      = st.model from rfl]
  rw [h]

theorem repopulate_of_updateParams_ok (mp : PopFn) (seed : Option Int)
    (params : List (String × Val)) (st : HODState) (u : Unit)
    (pd : List (String × Val)) (mock : Mock)
    (hu : updateParams st.model.param_dict params = (Except.ok u, pd))
    (hm : st.model.mock = Option.some mock) :
    repopulate mp seed params st
      = (Except.ok (),
         Array_init
           { st with attrs := setAttr st.attrs "seed" (Val.ofSeed seed),
                     model := { param_dict := pd,
                                mock := Option.some { mock with galaxy_table := Option.none } } }
           (scatterAll
             (remove_object_dtypes (mp mock.halocat_table pd st.mass 1 (Val.ofSeed seed)))
             st.rank_count),
         [CommEvent.scatterEv]) := by
  simp only [repopulate]
  rw [show ({ st with attrs := setAttr st.attrs "seed" (Val.ofSeed seed) } : HODState).model
      = st.model from rfl]
  rw [hu]
  simp only [hm, lookup_setAttr_self, Option.getD_some]


theorem HODBase_init_of_bindParams_error (model0 : HodModel) (pm : PopFn)
    (gk bk : String → String) (halos : List Table) (Lbox : Int)
    (cosmo : List (String × Val)) (redshift : Val) (mdef : String)
    (rsd : Option (List Int)) (seed : Option Int) (uc : Bool) (R : Nat)
    (params : List (String × Val)) (g : Globals) (e : PopError)
    (hb : bindParams (initAttrs Lbox redshift mdef (rsd.getD [0, 0, 0]) seed params cosmo)
        model0.param_dict (model0.param_dict.map Prod.fst) = Except.error e) :
    HODBase_init model0 pm gk bk halos Lbox cosmo redshift mdef rsd seed uc R params g
      = (Except.error e,
         { default_haloprop_list_inherited_by_mock := colnames (halos.headD []) },
         []) := by
  simp only [HODBase_init]
  rw [hb]

theorem HODBase_init_of_bindParams_ok (model0 : HodModel) (pm : PopFn)
    (gk bk : String → String) (halos : List Table) (Lbox : Int)
    (cosmo : List (String × Val)) (redshift : Val) (mdef : String)
    (rsd : Option (List Int)) (seed : Option Int) (uc : Bool) (R : Nat)
    (params : List (String × Val)) (g : Globals) (pd : List (String × Val))
    (hb : bindParams (initAttrs Lbox redshift mdef (rsd.getD [0, 0, 0]) seed params cosmo)
        model0.param_dict (model0.param_dict.map Prod.fst) = Except.ok pd) :
    HODBase_init model0 pm gk bk halos Lbox cosmo redshift mdef rsd seed uc R params g
      = (let attrs := initAttrs Lbox redshift mdef (rsd.getD [0, 0, 0]) seed params cosmo
         let halotab := remove_object_dtypes (gatherTables halos)
         let data := remove_object_dtypes
             (pm halotab pd (gk mdef) 1 ((List.lookup "seed" attrs).getD Val.none))
         let st2 : HODState :=
           { rank_count := R, halos_tables := halos.set 0 halotab, Lbox := Lbox,
             mass := gk mdef, radius := bk mdef, attrs := attrs,
             model := { param_dict := pd,
                        mock := Option.some { halocat_table := halotab,
                                              galaxy_table := Option.none } },
             sources := scatterAll data R, use_cache := uc, generation := 1 }
         if (st2.sources.map nrows).sum = 0
         then (Except.error PopError.emptyResult,
               { default_haloprop_list_inherited_by_mock := colnames (halos.headD []) },
               [CommEvent.gatherEv, CommEvent.scatterEv])
         else (Except.ok st2,
               { default_haloprop_list_inherited_by_mock := colnames (halos.headD []) },
               [CommEvent.gatherEv, CommEvent.scatterEv])) := by
  simp only [HODBase_init, makesource, Array_init]
  rw [hb]


theorem repopulate_of_mock_none (mp : PopFn) (seed : Option Int)
    (params : List (String × Val)) (st : HODState) (u : Unit)
    (pd : List (String × Val))
    (hu : updateParams st.model.param_dict params = (Except.ok u, pd))
    (hm : st.model.mock = Option.none) :
    repopulate mp seed params st
      = (Except.error PopError.attributeOnNone,
         { st with attrs := setAttr st.attrs "seed" (Val.ofSeed seed),
                   model := { st.model with param_dict := pd } }, []) := by
  simp only [repopulate]
  rw [show ({ st with attrs := setAttr st.attrs "seed" (Val.ofSeed seed) } : HODState).model
      = st.model from rfl]
  rw [hu]
  simp only [hm]

theorem repopulate_attrs_seed (mp : PopFn) (seed : Option Int)
    (params : List (String × Val)) (st : HODState) :
    (repopulate mp seed params st).2.1.attrs
      = setAttr st.attrs "seed" (Val.ofSeed seed) := by
  rcases hu : updateParams st.model.param_dict params with ⟨e, pd⟩
  cases e with
  | error err =>
    rw [repopulate_of_updateParams_error mp seed params st err pd hu]
  | ok u =>
    cases hm : st.model.mock with
    | none =>
      rw [repopulate_of_mock_none mp seed params st u pd hu hm]
    | some mock =>
      rw [repopulate_of_updateParams_ok mp seed params st u pd mock hu hm]
      rfl

/-- C9: a call to repopulate with the seed argument omitted (the Python
default None) overwrites the stored seed attribute with None as its first
action, discarding the previously stored seed; the overwrite is visible in
the state after the call whatever its outcome, including a failure on an
unknown parameter name. -/
theorem repopulate_overwrites_seed_with_none (mp : PopFn)
    (params : List (String × Val)) (st : HODState) :
    List.lookup "seed" ((repopulate mp Option.none params st).2.1.attrs)
      = Option.some Val.none := by
  rw [repopulate_attrs_seed]
  exact lookup_setAttr_self st.attrs "seed" (Val.ofSeed Option.none)

/-- C10: a repopulate call supplying the known parameter alpha and then the
unknown name nope fails with the unknown-parameter error, yet the new
value of alpha is already written into the model's parameter store when
the error is raised, so the parameter update is not atomic. -/
theorem repopulate_partial_param_update :
    (repopulate emptyPop Option.none
        [("alpha", Val.num 9), ("nope", Val.num 5)] exPopulated).1
      = Except.error (PopError.unknownParameter "nope")
    ∧ List.lookup "alpha"
        ((repopulate emptyPop Option.none
            [("alpha", Val.num 9), ("nope", Val.num 5)] exPopulated).2.1.model.param_dict)
      = Option.some (Val.num 9)
    ∧ List.lookup "alpha" exPopulated.model.param_dict = Option.some (Val.num 1) := by
  refine ⟨?_, ?_, ?_⟩ <;> rfl

/-- C2: a repopulate call whose parameters contain an unknown name (the
first such name by iteration order being the one found by find?) fails
with the unknown-parameter error naming it, leaves the installed source
shards and the generation counter unchanged, and performs no collective
communication. -/
theorem repopulate_unknown_param (mp : PopFn) (seed : Option Int)
    (params : List (String × Val)) (st : HODState) (nv : String × Val)
    (h : params.find? (fun kv => !(hasKey st.model.param_dict kv.1)) = Option.some nv) :
    (repopulate mp seed params st).1 = Except.error (PopError.unknownParameter nv.1)
    ∧ hasKey st.model.param_dict nv.1 = false
    ∧ (repopulate mp seed params st).2.1.sources = st.sources
    ∧ (repopulate mp seed params st).2.1.generation = st.generation
    ∧ (repopulate mp seed params st).2.2 = [] := by
  have hupd := updateParams_find_unknown params st.model.param_dict nv h
  rcases hu : updateParams st.model.param_dict params with ⟨e, pd⟩
  have he : e = Except.error (PopError.unknownParameter nv.1) := by
    have h1 := hupd.1
    rw [hu] at h1
    exact h1
  subst he
  rw [repopulate_of_updateParams_error mp seed params st _ pd hu]
  exact ⟨rfl, hupd.2, rfl, rfl, rfl⟩

/-- Witness for C2 at a concrete input: repopulating the concrete
populated catalog with the unknown name not_a_param fails with the
unknown-parameter error and leaves shards and generation unchanged. -/
theorem repopulate_unknown_param_witness :
    ([("not_a_param", Val.num 3)].find?
        (fun kv => !(hasKey exPopulated.model.param_dict kv.1))
        = Option.some ("not_a_param", Val.num 3))
    ∧ ((repopulate emptyPop Option.none [("not_a_param", Val.num 3)] exPopulated).1
        = Except.error (PopError.unknownParameter ("not_a_param", Val.num 3).1)
      ∧ hasKey exPopulated.model.param_dict ("not_a_param", Val.num 3).1 = false
      ∧ (repopulate emptyPop Option.none [("not_a_param", Val.num 3)] exPopulated).2.1.sources
          = exPopulated.sources
      ∧ (repopulate emptyPop Option.none [("not_a_param", Val.num 3)] exPopulated).2.1.generation
          = exPopulated.generation
      ∧ (repopulate emptyPop Option.none [("not_a_param", Val.num 3)] exPopulated).2.2 = []) :=
  ⟨by rfl, repopulate_unknown_param emptyPop Option.none
      [("not_a_param", Val.num 3)] exPopulated ("not_a_param", Val.num 3) (by rfl)⟩

/-- C3: a construction whose model declares a parameter that is absent
from the attribute map fails with the missing-parameter error naming
exactly the first missing declared parameter, and performs no collective
communication (no gather and no scatter). -/
theorem init_missing_param (model0 : HodModel) (pm : PopFn)
    (gk bk : String → String) (halos : List Table) (Lbox : Int)
    (cosmo : List (String × Val)) (redshift : Val) (mdef : String)
    (rsd : Option (List Int)) (seed : Option Int) (uc : Bool) (R : Nat)
    (params : List (String × Val)) (g : Globals) (n : String)
    (h : (model0.param_dict.map Prod.fst).find?
        (fun p => (List.lookup p
          (initAttrs Lbox redshift mdef (rsd.getD [0, 0, 0]) seed params cosmo)).isNone)
        = Option.some n) :
    (HODBase_init model0 pm gk bk halos Lbox cosmo redshift mdef rsd seed uc R params g).1
      = Except.error (PopError.missingParameter n)
    ∧ (List.lookup n
        (initAttrs Lbox redshift mdef (rsd.getD [0, 0, 0]) seed params cosmo)).isNone = true
    ∧ (HODBase_init model0 pm gk bk halos Lbox cosmo redshift mdef rsd seed uc R params g).2.2
      = [] := by
  have hbp := bindParams_find_missing
      (initAttrs Lbox redshift mdef (rsd.getD [0, 0, 0]) seed params cosmo)
      (model0.param_dict.map Prod.fst) model0.param_dict n h
  rw [HODBase_init_of_bindParams_error model0 pm gk bk halos Lbox cosmo redshift mdef
      rsd seed uc R params g _ hbp.1]
  exact ⟨rfl, hbp.2, rfl⟩

/-- Witness for C3 at a concrete input: a model declaring alpha and beta
constructed with an empty parameter mapping fails with the
missing-parameter error naming alpha and no collective operation runs. -/
theorem init_missing_param_witness :
    ((exModel.param_dict.map Prod.fst).find?
        (fun p => (List.lookup p
          (initAttrs 100 (Val.num 0) "vir" ((Option.none : Option (List Int)).getD [0, 0, 0])
            (Option.some 42) [] [])).isNone)
        = Option.some "alpha")
    ∧ ((HODBase_init exModel emptyPop (fun _ => "halo_mvir") (fun _ => "halo_rvir")
          [exHaloTable] 100 [] (Val.num 0) "vir" Option.none (Option.some 42) false 1 []
          { default_haloprop_list_inherited_by_mock := [] }).1
        = Except.error (PopError.missingParameter "alpha")
      ∧ (List.lookup "alpha"
          (initAttrs 100 (Val.num 0) "vir" ((Option.none : Option (List Int)).getD [0, 0, 0])
            (Option.some 42) [] [])).isNone = true
      ∧ (HODBase_init exModel emptyPop (fun _ => "halo_mvir") (fun _ => "halo_rvir")
          [exHaloTable] 100 [] (Val.num 0) "vir" Option.none (Option.some 42) false 1 []
          { default_haloprop_list_inherited_by_mock := [] }).2.2 = []) :=
  ⟨by rfl, init_missing_param exModel emptyPop (fun _ => "halo_mvir") (fun _ => "halo_rvir")
      [exHaloTable] 100 [] (Val.num 0) "vir" Option.none (Option.some 42) false 1 []
      { default_haloprop_list_inherited_by_mock := [] } "alpha" (by rfl)⟩

/-- C8: every construction overwrites the module-global default list of
halo properties inherited by the mock with the input halo table's column
names, whatever the prior global value was (so the effect is visible
outside the constructed instance, persists after the call, and is
re-overwritten by every subsequent construction in the same process). -/
theorem init_mutates_global_haloprop_list (model0 : HodModel) (pm : PopFn)
    (gk bk : String → String) (halos : List Table) (Lbox : Int)
    (cosmo : List (String × Val)) (redshift : Val) (mdef : String)
    (rsd : Option (List Int)) (seed : Option Int) (uc : Bool) (R : Nat)
    (params : List (String × Val)) (g g2 : Globals) :
    (HODBase_init model0 pm gk bk halos Lbox cosmo redshift mdef rsd seed uc R params g).2.1
      = { default_haloprop_list_inherited_by_mock := colnames (halos.headD []) }
    ∧ (HODBase_init model0 pm gk bk halos Lbox cosmo redshift mdef rsd seed uc R params g).2.1
      = (HODBase_init model0 pm gk bk halos Lbox cosmo redshift mdef rsd seed uc R params g2).2.1 := by
  have hmain : ∀ (g3 : Globals),
      (HODBase_init model0 pm gk bk halos Lbox cosmo redshift mdef rsd seed uc R params g3).2.1
        = { default_haloprop_list_inherited_by_mock := colnames (halos.headD []) } := by
    intro g3
    cases hb : bindParams (initAttrs Lbox redshift mdef (rsd.getD [0, 0, 0]) seed params cosmo)
        model0.param_dict (model0.param_dict.map Prod.fst) with
    | error e =>
      rw [HODBase_init_of_bindParams_error model0 pm gk bk halos Lbox cosmo redshift mdef
          rsd seed uc R params g3 e hb]
    | ok pd =>
      rw [HODBase_init_of_bindParams_ok model0 pm gk bk halos Lbox cosmo redshift mdef
          rsd seed uc R params g3 pd hb]
      dsimp only
      split <;> rfl
  exact ⟨hmain g, (hmain g).trans (hmain g2).symm⟩

theorem vstackT_ok (t : Table) (n1 n2 n3 : String) (xs ys zs : List Cell)
    (h1 : getCol t n1 = Option.some xs) (h2 : getCol t n2 = Option.some ys)
    (h3 : getCol t n3 = Option.some zs) :
    vstackT t n1 n2 n3 = Except.ok (zip3 xs ys zs) := by
  simp [vstackT, h1, h2, h3]

theorem vstackT_missing (t : Table) (n1 n2 n3 : String)
    (h : (getCol t n1).isNone ∨ (getCol t n2).isNone ∨ (getCol t n3).isNone) :
    ∃ n, vstackT t n1 n2 n3 = Except.error (PopError.missingColumn n)
      ∧ getCol t n = Option.none ∧ (n = n1 ∨ n = n2 ∨ n = n3) := by
  cases hc1 : getCol t n1 with
  | none => exact ⟨n1, by simp [vstackT, hc1], hc1, Or.inl rfl⟩
  | some xs =>
    cases hc2 : getCol t n2 with
    | none => exact ⟨n2, by simp [vstackT, hc1, hc2], hc2, Or.inr (Or.inl rfl)⟩
    | some ys =>
      cases hc3 : getCol t n3 with
      | none => exact ⟨n3, by simp [vstackT, hc1, hc2, hc3], hc3, Or.inr (Or.inr rfl)⟩
      | some zs =>
        exfalso
        rcases h with h | h | h
        · rw [hc1] at h; cases h
        · rw [hc2] at h; cases h
        · rw [hc3] at h; cases h

theorem remove_object_dtypes_no_object (data : Table) (c : Column)
    (h : c ∈ remove_object_dtypes data) : c.dtype ≠ DType.object := by
  simp only [remove_object_dtypes, List.mem_map] at h
  obtain ⟨c0, _, hc⟩ := h
  by_cases h0 : c0.dtype = DType.object
  · rw [if_pos h0] at hc
    rw [← hc]
    intro hcontra
    cases hcontra
  · rw [if_neg h0] at hc
    rw [← hc]
    exact h0

theorem mem_scatterAll_dtype (data : Table) (R : Nat) (sh : Table) (c : Column)
    (hsh : sh ∈ scatterAll data R) (hc : c ∈ sh) :
    ∃ c0 ∈ data, c.dtype = c0.dtype := by
  simp only [scatterAll, List.mem_map, List.mem_range] at hsh
  obtain ⟨i, _, hsheq⟩ := hsh
  rw [← hsheq] at hc
  simp only [scatterTable, List.mem_map] at hc
  obtain ⟨c0, hc0, hceq⟩ := hc
  exact ⟨c0, hc0, by rw [← hceq]⟩

theorem sum_nrows_scatterAll_nil (R : Nat) :
    ((scatterAll ([] : Table) R).map nrows).sum = 0 := by
  refine List.sum_eq_zero ?_
  intro x hx
  simp only [scatterAll, scatterTable, List.map_map, List.mem_map] at hx
  obtain ⟨i, _, hxeq⟩ := hx
  rw [← hxeq]
  rfl

/-- C6: on a shard containing the columns x, y and z, the Position
accessor returns one 3-vector per row in row order, row i being the triple
of the i-th entries of x, y and z; on a shard missing any of the three
source columns it fails with the missing-column error naming an absent
column. The same holds for Velocity over vx, vy and vz. -/
theorem position_velocity_spec :
    (∀ (src : Table) (xs ys zs : List Cell),
        getCol src "x" = Option.some xs → getCol src "y" = Option.some ys →
        getCol src "z" = Option.some zs →
        ∃ rows, Position src = Except.ok rows
          ∧ rows.length = min xs.length (min ys.length zs.length)
          ∧ ∀ (i : Nat) (a b c : Cell), xs[i]? = Option.some a →
              ys[i]? = Option.some b → zs[i]? = Option.some c →
              rows[i]? = Option.some (a, b, c))
    ∧ (∀ (src : Table),
        (getCol src "x").isNone ∨ (getCol src "y").isNone ∨ (getCol src "z").isNone →
        ∃ n, Position src = Except.error (PopError.missingColumn n)
          ∧ getCol src n = Option.none ∧ (n = "x" ∨ n = "y" ∨ n = "z"))
    ∧ (∀ (src : Table) (xs ys zs : List Cell),
        getCol src "vx" = Option.some xs → getCol src "vy" = Option.some ys →
        getCol src "vz" = Option.some zs →
        ∃ rows, Velocity src = Except.ok rows
          ∧ rows.length = min xs.length (min ys.length zs.length)
          ∧ ∀ (i : Nat) (a b c : Cell), xs[i]? = Option.some a →
              ys[i]? = Option.some b → zs[i]? = Option.some c →
              rows[i]? = Option.some (a, b, c))
    ∧ (∀ (src : Table),
        (getCol src "vx").isNone ∨ (getCol src "vy").isNone ∨ (getCol src "vz").isNone →
        ∃ n, Velocity src = Except.error (PopError.missingColumn n)
          ∧ getCol src n = Option.none ∧ (n = "vx" ∨ n = "vy" ∨ n = "vz")) := by
  refine ⟨?_, ?_, ?_, ?_⟩
  · intro src xs ys zs h1 h2 h3
    exact ⟨zip3 xs ys zs, vstackT_ok src "x" "y" "z" xs ys zs h1 h2 h3,
      zip3_length xs ys zs,
      fun i a b c ha hb hc => zip3_getElem? xs ys zs i a b c ha hb hc⟩
  · intro src h
    exact vstackT_missing src "x" "y" "z" h
  · intro src xs ys zs h1 h2 h3
    exact ⟨zip3 xs ys zs, vstackT_ok src "vx" "vy" "vz" xs ys zs h1 h2 h3,
      zip3_length xs ys zs,
      fun i a b c ha hb hc => zip3_getElem? xs ys zs i a b c ha hb hc⟩
  · intro src h
    exact vstackT_missing src "vx" "vy" "vz" h

/-- Witness for C6 at the concrete shard with x = [1, 2], y = [3, 4],
z = [5, 6]: Position succeeds with two rows whose entries are the triples
of the column entries in row order. -/
theorem position_velocity_spec_witness :
    (getCol exGalaxyTable "x" = Option.some [Cell.num 1, Cell.num 2])
    ∧ (getCol exGalaxyTable "y" = Option.some [Cell.num 3, Cell.num 4])
    ∧ (getCol exGalaxyTable "z" = Option.some [Cell.num 5, Cell.num 6])
    ∧ (∃ rows, Position exGalaxyTable = Except.ok rows
        ∧ rows.length = min ([Cell.num 1, Cell.num 2] : List Cell).length
            (min ([Cell.num 3, Cell.num 4] : List Cell).length
              ([Cell.num 5, Cell.num 6] : List Cell).length)
        ∧ ∀ (i : Nat) (a b c : Cell),
            ([Cell.num 1, Cell.num 2] : List Cell)[i]? = Option.some a →
            ([Cell.num 3, Cell.num 4] : List Cell)[i]? = Option.some b →
            ([Cell.num 5, Cell.num 6] : List Cell)[i]? = Option.some c →
            rows[i]? = Option.some (a, b, c)) :=
  ⟨by rfl, by rfl, by rfl,
    position_velocity_spec.1 exGalaxyTable
      [Cell.num 1, Cell.num 2] [Cell.num 3, Cell.num 4] [Cell.num 5, Cell.num 6]
      (by rfl) (by rfl) (by rfl)⟩

/-- C7: remove_object_dtypes converts exactly the object-dtype (variant)
columns to the fixed-width unicode text dtype, position for position,
leaving every non-variant column untouched, and its output never contains
an object-dtype column; consequently, after a successful construction the
halo table stored in the mock (the table handed to the external transform)
and every installed source shard contain no object-dtype column, and the
shards installed by a successful repopulation contain none either (both
paths re-apply the normalization to the transform output). -/
theorem normalize_variant_columns :
    (∀ (data : Table) (i : Nat) (c : Column), data[i]? = Option.some c →
        c.dtype = DType.object →
        (remove_object_dtypes data)[i]? = Option.some (Column.astypeU c)
        ∧ (Column.astypeU c).dtype = DType.unicode)
    ∧ (∀ (data : Table) (i : Nat) (c : Column), data[i]? = Option.some c →
        c.dtype ≠ DType.object →
        (remove_object_dtypes data)[i]? = Option.some c)
    ∧ (∀ (data : Table) (c : Column), c ∈ remove_object_dtypes data →
        c.dtype ≠ DType.object)
    ∧ (∀ (model0 : HodModel) (pm : PopFn) (gk bk : String → String)
        (halos : List Table) (Lbox : Int) (cosmo : List (String × Val))
        (redshift : Val) (mdef : String) (rsd : Option (List Int))
        (seed : Option Int) (uc : Bool) (R : Nat) (params : List (String × Val))
        (g : Globals) (st : HODState),
        (HODBase_init model0 pm gk bk halos Lbox cosmo redshift mdef rsd seed uc R
            params g).1 = Except.ok st →
        (∀ m, st.model.mock = Option.some m →
            ∀ c ∈ m.halocat_table, c.dtype ≠ DType.object)
        ∧ (∀ sh ∈ st.sources, ∀ c ∈ sh, c.dtype ≠ DType.object))
    ∧ (∀ (mp : PopFn) (seed : Option Int) (params : List (String × Val))
        (st : HODState),
        (repopulate mp seed params st).1 = Except.ok () →
        ∀ sh ∈ (repopulate mp seed params st).2.1.sources, ∀ c ∈ sh,
          c.dtype ≠ DType.object) := by
  refine ⟨?_, ?_, remove_object_dtypes_no_object, ?_, ?_⟩
  · intro data i c h ho
    constructor
    · simp only [remove_object_dtypes, List.getElem?_map, h]
      simp [ho]
    · rfl
  · intro data i c h ho
    simp only [remove_object_dtypes, List.getElem?_map, h]
    simp [ho]
  · intro model0 pm gk bk halos Lbox cosmo redshift mdef rsd seed uc R params g st h
    cases hb : bindParams (initAttrs Lbox redshift mdef (rsd.getD [0, 0, 0]) seed params cosmo)
        model0.param_dict (model0.param_dict.map Prod.fst) with
    | error e =>
      rw [HODBase_init_of_bindParams_error model0 pm gk bk halos Lbox cosmo redshift mdef
          rsd seed uc R params g e hb] at h
      cases h
    | ok pd =>
      rw [HODBase_init_of_bindParams_ok model0 pm gk bk halos Lbox cosmo redshift mdef
          rsd seed uc R params g pd hb] at h
      dsimp only at h
      split at h
      · cases h
      · have hst : st = _ := (Except.ok.injEq _ _ ▸ h).symm
        injection h with h2
        constructor
        · intro m hm c hc
          rw [← h2] at hm
          have hmeq : m = { halocat_table := remove_object_dtypes (gatherTables halos),
                            galaxy_table := Option.none } := by
            injection hm with h3
            exact h3.symm
          rw [hmeq] at hc
          exact remove_object_dtypes_no_object (gatherTables halos) c hc
        · intro sh hsh c hc
          rw [← h2] at hsh
          obtain ⟨c0, hc0, hdt⟩ := mem_scatterAll_dtype _ _ sh c hsh hc
          rw [hdt]
          exact remove_object_dtypes_no_object _ c0 hc0
  · intro mp seed params st h sh hsh c hc
    rcases hu : updateParams st.model.param_dict params with ⟨e, pd⟩
    cases e with
    | error err =>
      rw [repopulate_of_updateParams_error mp seed params st err pd hu] at h
      cases h
    | ok u =>
      cases hm : st.model.mock with
      | none =>
        rw [repopulate_of_mock_none mp seed params st u pd hu hm] at h
        cases h
      | some mock =>
        rw [repopulate_of_updateParams_ok mp seed params st u pd mock hu hm] at hsh
        simp only [Array_init] at hsh
        obtain ⟨c0, hc0, hdt⟩ := mem_scatterAll_dtype _ _ sh c hsh hc
        rw [hdt]
        exact remove_object_dtypes_no_object _ c0 hc0

/-- Witness for C7 at a concrete input: the object-dtype column tag of the
concrete halo table is converted in place to the unicode dtype. -/
theorem normalize_variant_columns_witness :
    (exHaloTable[1]? = Option.some
        { name := "tag", dtype := DType.object, cells := [Cell.obj "a"] })
    ∧ (({ name := "tag", dtype := DType.object, cells := [Cell.obj "a"] } : Column).dtype
        = DType.object)
    ∧ ((remove_object_dtypes exHaloTable)[1]? = Option.some
          (Column.astypeU { name := "tag", dtype := DType.object, cells := [Cell.obj "a"] })
      ∧ (Column.astypeU
          { name := "tag", dtype := DType.object, cells := [Cell.obj "a"] }).dtype
        = DType.unicode) :=
  ⟨by rfl, by rfl,
    normalize_variant_columns.1 exHaloTable 1
      { name := "tag", dtype := DType.object, cells := [Cell.obj "a"] } (by rfl) (by rfl)⟩

/-- C1 (amended): the zero-row postcondition check runs only during
construction — a construction that returns successfully always holds
shards with a positive total row count, and a construction whose transform
produces no rows fails with the empty-result error after gather and
scatter have run; repopulate performs no such check: whenever its
parameter update succeeds and a mock exists it returns successfully,
whatever the row count of the scattered result. -/
theorem empty_check_construction_only :
    (∀ (model0 : HodModel) (pm : PopFn) (gk bk : String → String)
        (halos : List Table) (Lbox : Int) (cosmo : List (String × Val))
        (redshift : Val) (mdef : String) (rsd : Option (List Int))
        (seed : Option Int) (uc : Bool) (R : Nat) (params : List (String × Val))
        (g : Globals) (st : HODState),
        (HODBase_init model0 pm gk bk halos Lbox cosmo redshift mdef rsd seed uc R
            params g).1 = Except.ok st →
        0 < (st.sources.map nrows).sum)
    ∧ (∀ (model0 : HodModel) (gk bk : String → String) (halos : List Table)
        (Lbox : Int) (cosmo : List (String × Val)) (redshift : Val) (mdef : String)
        (rsd : Option (List Int)) (seed : Option Int) (uc : Bool) (R : Nat)
        (params : List (String × Val)) (g : Globals) (pd : List (String × Val)),
        bindParams (initAttrs Lbox redshift mdef (rsd.getD [0, 0, 0]) seed params cosmo)
            model0.param_dict (model0.param_dict.map Prod.fst) = Except.ok pd →
        (HODBase_init model0 emptyPop gk bk halos Lbox cosmo redshift mdef rsd seed uc R
            params g).1 = Except.error PopError.emptyResult)
    ∧ (∀ (mp : PopFn) (seed : Option Int) (params : List (String × Val))
        (st : HODState) (u : Unit) (pd : List (String × Val)) (mock : Mock),
        updateParams st.model.param_dict params = (Except.ok u, pd) →
        st.model.mock = Option.some mock →
        (repopulate mp seed params st).1 = Except.ok ()) := by
  refine ⟨?_, ?_, ?_⟩
  · intro model0 pm gk bk halos Lbox cosmo redshift mdef rsd seed uc R params g st h
    cases hb : bindParams (initAttrs Lbox redshift mdef (rsd.getD [0, 0, 0]) seed params cosmo)
        model0.param_dict (model0.param_dict.map Prod.fst) with
    | error e =>
      rw [HODBase_init_of_bindParams_error model0 pm gk bk halos Lbox cosmo redshift mdef
          rsd seed uc R params g e hb] at h
      cases h
    | ok pd =>
      rw [HODBase_init_of_bindParams_ok model0 pm gk bk halos Lbox cosmo redshift mdef
          rsd seed uc R params g pd hb] at h
      dsimp only at h
      split at h
      · cases h
      · next hne =>
        injection h with h2
        rw [← h2]
        exact Nat.pos_of_ne_zero hne
  · intro model0 gk bk halos Lbox cosmo redshift mdef rsd seed uc R params g pd hb
    rw [HODBase_init_of_bindParams_ok model0 emptyPop gk bk halos Lbox cosmo redshift mdef
        rsd seed uc R params g pd hb]
    dsimp only
    split
    · rfl
    · next hne => exact absurd (sum_nrows_scatterAll_nil R) hne
  · intro mp seed params st u pd mock hu hm
    rw [repopulate_of_updateParams_ok mp seed params st u pd mock hu hm]

/-- Witness for C1 at a concrete input: repopulating the concrete
populated catalog with no parameter updates succeeds. -/
theorem empty_check_construction_only_witness :
    (updateParams exPopulated.model.param_dict []
        = (Except.ok (), exPopulated.model.param_dict))
    ∧ (exPopulated.model.mock = Option.some
        { halocat_table := remove_object_dtypes exHaloTable, galaxy_table := Option.none })
    ∧ (repopulate emptyPop Option.none [] exPopulated).1 = Except.ok () :=
  ⟨by rfl, by rfl,
    empty_check_construction_only.2.2 emptyPop Option.none [] exPopulated ()
      exPopulated.model.param_dict
      { halocat_table := remove_object_dtypes exHaloTable, galaxy_table := Option.none }
      (by rfl) (by rfl)⟩

/-- Counterexample for C1 as stated: repopulating the concrete populated
catalog with a transform that returns no rows succeeds (no empty-result
error is raised) and installs shards whose total row count is zero, so
repopulate does not perform the zero-row postcondition check that
construction performs. -/
theorem repopulate_no_empty_check_cex :
    (repopulate emptyPop (Option.some 7) [] exPopulated).1 = Except.ok ()
    ∧ (repopulate emptyPop (Option.some 7) [] exPopulated).1
        ≠ Except.error PopError.emptyResult
    ∧ (((repopulate emptyPop (Option.some 7) [] exPopulated).2.1.sources).map nrows).sum
        = 0 := by
  refine ⟨by rfl, ?_, by rfl⟩
  intro hcontra
  cases (show (Except.ok () : Except PopError Unit) = Except.error PopError.emptyResult from
    (by rfl : (repopulate emptyPop (Option.some 7) [] exPopulated).1
      = Except.ok ()).symm.trans hcontra)
